import Mathlib

set_option autoImplicit false

/-
Verification of the web3-eth JSON-RPC binding (packages/web3-eth/src/index.ts)
against its design specification.

The value-format conversion layer (formatInput, formatOutput,
formatRpcResultArray, convert) lives in the web3-utils package, whose source
is not part of this snapshot; those functions are modelled from the
specification (sections 4.1 and 4.3).  Everything in the dispatcher layer is
translated directly from packages/web3-eth/src/index.ts.
-/

/-- A JSON-like value: the dynamic values that flow through the binding
(parameters, RPC results, record fields). -/
inductive Jv where
  | null : Jv
  | bool (b : Bool) : Jv
  | str (s : String) : Jv
  | num (n : Nat) : Jv
  | obj (fields : List (String × Jv)) : Jv
  | arr (elems : List Jv) : Jv

/-- The output representations of the format converter, from spec section 4.1:
HexString, Number, BigInt-like, DecimalString. -/
inductive ValidTypesEnum where
  | HexString : ValidTypesEnum
  | Number : ValidTypesEnum
  | BigInt : ValidTypesEnum
  | DecimalString : ValidTypesEnum

/-- Hexadecimal digit characters, lowercase, as produced by the converter. -/
def hexChar : Nat → Char
  | 0 => '0'
  | 1 => '1'
  | 2 => '2'
  | 3 => '3'
  | 4 => '4'
  | 5 => '5'
  | 6 => '6'
  | 7 => '7'
  | 8 => '8'
  | 9 => '9'
  | 10 => 'a'
  | 11 => 'b'
  | 12 => 'c'
  | 13 => 'd'
  | 14 => 'e'
  | 15 => 'f'
  | _ => '0'

/-- Numeric value of a digit character; accepts both cases of hex letters. -/
def charVal (c : Char) : Option Nat :=
  if 48 ≤ c.toNat ∧ c.toNat ≤ 57 then some (c.toNat - 48)
  else if 97 ≤ c.toNat ∧ c.toNat ≤ 102 then some (c.toNat - 87)
  else if 65 ≤ c.toNat ∧ c.toNat ≤ 70 then some (c.toNat - 55)
  else none

/-- Little-endian base-b digits of n, computed with explicit fuel so that the
definition is structurally recursive. -/
def digitsFuel (b : Nat) : Nat → Nat → List Nat
  | 0, _ => []
  | fuel + 1, n => if n = 0 then [] else n % b :: digitsFuel b fuel (n / b)

/-- Little-endian base-b digits of n (fuel n always suffices for b ≥ 2). -/
def natDigits (b n : Nat) : List Nat :=
  digitsFuel b n n

/-- Character rendering of n in base b: most significant digit first, no
leading zeros, lowercase; 0 renders as the single digit 0. -/
def natToBaseChars (b n : Nat) : List Char :=
  if n = 0 then ['0'] else (natDigits b n).reverse.map hexChar

/-- Render n in base b as a string. -/
def natToBaseStr (b n : Nat) : String :=
  String.mk (natToBaseChars b n)

/-- Big-endian digit string evaluated to a number (head is most
significant). -/
def ofDigitsN (b : Nat) : List Nat → Nat
  | [] => 0
  | d :: ds => d + b * ofDigitsN b ds

/-- Parse a list of digit characters in base b; fails on an invalid or
out-of-range character. -/
def parseDigits (b : Nat) : List Char → Option (List Nat)
  | [] => some []
  | c :: cs =>
    match charVal c, parseDigits b cs with
    | some v, some vs => if v < b then some (v :: vs) else none
    | _, _ => none

/-- Parse a non-empty big-endian numeral in base b. -/
def parseBase (b : Nat) (cs : List Char) : Option Nat :=
  match parseDigits b cs with
  | some vs => if cs.isEmpty then none else some (ofDigitsN b vs.reverse)
  | none => none

/-- Textual rendering of a value, used in conversion error messages. -/
def jvText : Jv → String
  | .null => "null"
  | .bool true => "true"
  | .bool false => "false"
  | .str s => s
  | .num n => natToBaseStr 10 n
  | .obj _ => "object"
  | .arr _ => "array"

/-- Conversion error message for a value the converter cannot interpret. -/
def convErr (v : Jv) : String :=
  "ConversionError: cannot convert " ++ jvText v

/-- Modelled from the spec: the input side of the Format Converter of
web3-utils (not under src/).  Per section 4.1, the input may be a prefixed
hex string, a decimal numeric string, or a native integer; anything else
fails with a ConversionError. -/
def parseNumeral (v : Jv) : Except String Nat :=
  match v with
  | .num n => .ok n
  | .str s =>
    let cs := s.toList
    if cs.take 2 = ['0', 'x'] then
      match parseBase 16 (cs.drop 2) with
      | some n => .ok n
      | none => .error (convErr v)
    else
      match parseBase 10 cs with
      | some n => .ok n
      | none => .error (convErr v)
  | _ => .error (convErr v)

/-- The largest numeric value that is exactly representable, 2 ^ 53 - 1. -/
def maxSafeInteger : Nat := 9007199254740991

/-- Modelled from the spec: convert of the Format Converter of web3-utils
(not under src/), section 4.1.  HexString renders are zero-left-trimmed
lowercase 0x-prefixed; Number fails when the magnitude exceeds the safe
integer range. -/
def convert (v : Jv) (target : ValidTypesEnum) : Except String Jv :=
  match parseNumeral v with
  | .error m => .error m
  | .ok n =>
    match target with
    | .HexString => .ok (.str ("0x" ++ natToBaseStr 16 n))
    | .DecimalString => .ok (.str (natToBaseStr 10 n))
    | .BigInt => .ok (.num n)
    | .Number =>
      if n ≤ maxSafeInteger then .ok (.num n)
      else .error ("ConversionError: value exceeds the safe integer range: " ++ natToBaseStr 10 n)

/-- Modelled from the spec: formatInput of web3-utils (not under src/).
Converts a caller-supplied value to the canonical wire hex string; the
optional byte width left-pads with zero bytes to exactly that width and
fails when the value already exceeds it (section 4.1). -/
def formatInput (v : Jv) (width : Option Nat) : Except String String :=
  match parseNumeral v with
  | .error m => .error m
  | .ok n =>
    let ds := natToBaseStr 16 n
    match width with
    | none => .ok ("0x" ++ ds)
    | some w =>
      if 2 * w < ds.length then
        .error ("ConversionError: value exceeds requested byte width")
      else
        .ok ("0x" ++ String.mk (List.replicate (2 * w - ds.length) '0') ++ ds)

/-- Modelled from the spec: formatOutput of web3-utils (not under src/).
Converts a scalar RPC result from the wire representation to the requested
output representation (section 4.1). -/
def formatOutput (v : Jv) (target : ValidTypesEnum) : Except String Jv :=
  convert v target

/-- Modelled from the spec: the per-record step of formatRpcResultArray of
web3-utils (not under src/).  Converts each named field present in a record;
fields not named, absent fields, and non-record scalars (such as the boolean
form of the syncing result) are left as received (section 4.3). -/
def formatRpcRecord (fields : List String) (target : ValidTypesEnum) : Jv → Except String Jv
  | .obj kvs =>
    match kvs.mapM (fun kv =>
      if kv.1 ∈ fields then (convert kv.2 target).map (fun w => (kv.1, w)) else .ok kv) with
    | .ok kvs2 => .ok (.obj kvs2)
    | .error m => .error m
  | v => .ok v

/-- Modelled from the spec: formatRpcResultArray of web3-utils (not under
src/).  A null result is passed through unchanged; a sequence is normalized
independently element by element; otherwise the record step applies
(section 4.3). -/
def formatRpcResultArray (raw : Jv) (fields : List String) (target : ValidTypesEnum) : Except String Jv :=
  match raw with
  | .null => .ok .null
  | .arr xs =>
    match xs.mapM (formatRpcRecord fields target) with
    | .ok ys => .ok (.arr ys)
    | .error m => .error m
  | v => formatRpcRecord fields target v

/-- The transaction argument of sendTransaction, signTransaction, call and
estimateGas: the four numeric fields the dispatcher formats, plus the
remaining fields (from, to, data, ...) that are passed through unchanged. -/
structure EthTransactionW where
  gas : Option Jv
  gasPrice : Option Jv
  value : Option Jv
  nonce : Option Jv
  rest : List (String × Jv)

/-- The filter argument of newFilter and getLogs: the two block-range fields
the dispatcher formats, plus the remaining fields passed through. -/
structure EthFilterW where
  fromBlock : Option Jv
  toBlock : Option Jv
  rest : List (String × Jv)

/-- A dispatched positional parameter: a plain value, a transaction object,
or a filter object. -/
inductive RpcParam where
  | val (v : Jv) : RpcParam
  | tx (t : EthTransactionW) : RpcParam
  | filter (f : EthFilterW) : RpcParam

/-- Per-call options of every public operation: subscribe-vs-send mode, the
per-call output representation override, and the raw JSON-RPC envelope
options spread into the request. -/
structure CallOptions where
  subscribe : Bool
  returnType : Option ValidTypesEnum
  rpcOptions : List (String × Jv)

/-- The request handed to the Request Manager: the spread rpcOptions of the
call plus the method name and positional parameter list. -/
structure RpcRequest where
  rpcOptions : List (String × Jv)
  method : String
  params : List RpcParam

/-- The JSON-RPC 2.0 response envelope returned by the Request Manager. -/
structure RpcResponse where
  id : Nat
  jsonrpc : String
  result : Jv

/-- The opaque handle returned by the Request Manager subscribe call. -/
structure SubscriptionResponse where
  handle : Nat

/-- The external Request Manager collaborator, modelled as its observable
behavior: the response it produces for a sent request and the handle it
produces for a subscription. -/
structure RequestManager where
  sendResponse : RpcRequest → RpcResponse
  subscribeResponse : RpcRequest → SubscriptionResponse

/-- The per-client read-only configuration of a Web3Eth instance. -/
structure Web3Eth where
  defaultReturnType : ValidTypesEnum

/-- The value a public operation resolves with: a (possibly normalized)
response envelope or the raw subscription handle. -/
inductive EthResponse where
  | response (r : RpcResponse) : EthResponse
  | subscription (s : SubscriptionResponse) : EthResponse

/-- JavaScript truthiness of a possibly-absent field value: undefined, null,
false, 0 and the empty string are falsy. -/
def truthy : Option Jv → Bool
  | none => false
  | some .null => false
  | some (.bool b) => b
  | some (.str s) => !s.isEmpty
  | some (.num n) => !(n == 0)
  | some (.obj _) => true
  | some (.arr _) => true

/-- Whether the caller requested subscribe mode (callOptions?.subscribe). -/
def subscribeRequested (co : Option CallOptions) : Bool :=
  match co with
  | some c => c.subscribe
  | none => false

/-- The rpcOptions spread into the request ({...callOptions?.rpcOptions}). -/
def rpcOptionsOf (co : Option CallOptions) : List (String × Jv) :=
  match co with
  | some c => c.rpcOptions
  | none => []

/-- The output representation used by operations that honor the per-call
override (callOptions?.returnType or the per-client default). -/
def effectiveReturnType (eth : Web3Eth) (co : Option CallOptions) : ValidTypesEnum :=
  match co with
  | some c =>
    match c.returnType with
    | some t => t
    | none => eth.defaultReturnType
  | none => eth.defaultReturnType

/-- The try/catch of every public operation: any error escaping the body is
rethrown with the method-specific context message prepended. -/
def wrapErrors (ctx : String) :
    Except String EthResponse × List RpcRequest → Except String EthResponse × List RpcRequest
  | (.error m, l) => (.error (ctx ++ m), l)
  | r => r

/-- Construction of the request transmitted for a call: the spread
rpcOptions plus method name and positional parameters. -/
def mkReq (co : Option CallOptions) (method : String) (params : List RpcParam) : RpcRequest :=
  { rpcOptions := rpcOptionsOf co, method := method, params := params }

/-- The common dispatch tail of every operation: build the request, then
either subscribe (returning the subscription handle as-is) or send and
apply the operation's result normalization, recording the transmitted
request. -/
def dispatchCall (mgr : RequestManager) (co : Option CallOptions) (method : String)
    (params : List RpcParam) (normalize : Option (Jv → Except String Jv)) :
    Except String EthResponse × List RpcRequest :=
  let req : RpcRequest := mkReq co method params
  if subscribeRequested co then
    (.ok (.subscription (mgr.subscribeResponse req)), [req])
  else
    let response := mgr.sendResponse req
    match normalize with
    | none => (.ok (.response response), [req])
    | some f =>
      match f response.result with
      | .error m => (.error m, [req])
      | .ok r => (.ok (.response { response with result := r }), [req])

/-- Format one of the four numeric transaction fields the way the source
does: a truthy value is converted with formatInput, a falsy or absent value
becomes undefined. -/
def formatTxField (v : Option Jv) : Except String (Option Jv) :=
  if truthy v then
    match v with
    | some x =>
      match formatInput x none with
      | .ok h => .ok (some (.str h))
      | .error m => .error m
    | none => .ok none
  else
    .ok none

/-- The transaction object literal built by sendTransaction, signTransaction,
call and estimateGas: {...transaction, gas: ..., gasPrice: ..., value: ...,
nonce: ...} with each of the four fields formatted when truthy. -/
def formatTransactionW (t : EthTransactionW) : Except String EthTransactionW :=
  match formatTxField t.gas with
  | .error m => .error m
  | .ok g =>
    match formatTxField t.gasPrice with
    | .error m => .error m
    | .ok gp =>
      match formatTxField t.value with
      | .error m => .error m
      | .ok vl =>
        match formatTxField t.nonce with
        | .error m => .error m
        | .ok nc => .ok { gas := g, gasPrice := gp, value := vl, nonce := nc, rest := t.rest }

/-- The filter object literal built by newFilter and getLogs:
{...filter, fromBlock: ..., toBlock: ...} with both fields formatted when
truthy. -/
def formatFilterW (f : EthFilterW) : Except String EthFilterW :=
  match formatTxField f.fromBlock with
  | .error m => .error m
  | .ok fb =>
    match formatTxField f.toBlock with
    | .error m => .error m
    | .ok tb => .ok { fromBlock := fb, toBlock := tb, rest := f.rest }

/-- Web3Eth._isBlockTag: whether the block identifier is one of the reserved
keywords of the BlockTags enumeration. -/
def isBlockTag (v : Jv) : Bool :=
  match v with
  | .str s => s == "latest" || s == "earliest" || s == "pending"
  | _ => false

namespace Web3Eth

/-- getSha3 (index.ts lines 109-125): dispatches the method name literally
written in the source, with the data as the single parameter, and performs
no result normalization. -/
def getSha3 (_eth : Web3Eth) (mgr : RequestManager) (data : String)
    (co : Option CallOptions) : Except String EthResponse × List RpcRequest :=
  wrapErrors ("Error getting sha3 hash: ") <|
    dispatchCall mgr co ("web3_clientVersion") [.val (.str data)] none

/-- getGasPrice (index.ts lines 368-391): no parameters, result normalized
with formatOutput at the effective return type. -/
def getGasPrice (eth : Web3Eth) (mgr : RequestManager)
    (co : Option CallOptions) : Except String EthResponse × List RpcRequest :=
  wrapErrors ("Error getting gas price: ") <|
    dispatchCall mgr co ("eth_gasPrice") []
      (some fun r => formatOutput r (effectiveReturnType eth co))

/-- getSyncing (index.ts lines 254-279): no parameters; the result is
normalized with formatRpcResultArray over the three sync-progress fields,
using the per-client default return type only. -/
def getSyncing (eth : Web3Eth) (mgr : RequestManager)
    (co : Option CallOptions) : Except String EthResponse × List RpcRequest :=
  wrapErrors ("Error getting syncing status: ") <|
    dispatchCall mgr co ("eth_syncing") []
      (some fun r =>
        formatRpcResultArray r ["startingBlock", "currentBlock", "highestBlock"]
          eth.defaultReturnType)

/-- getBalance (index.ts lines 458-492): the block identifier bypasses
conversion when it is a reserved block tag; the method name is the one
literally written in the source. -/
def getBalance (eth : Web3Eth) (mgr : RequestManager) (address : String)
    (blockIdentifier : Jv) (co : Option CallOptions) :
    Except String EthResponse × List RpcRequest :=
  wrapErrors ("Error getting balance: ") <|
    match
      (if isBlockTag blockIdentifier then .ok blockIdentifier
       else
         match formatInput blockIdentifier none with
         | .ok h => .ok (.str h)
         | .error m => .error m : Except String Jv)
    with
    | .error m => (.error m, [])
    | .ok blk =>
      dispatchCall mgr co ("net_version") [.val (.str address), .val blk]
        (some fun r => formatOutput r (effectiveReturnType eth co))

/-- getStorageAt (index.ts lines 504-538): both the storage position and the
block identifier are formatted with formatInput, in that order, with no
block-tag bypass. -/
def getStorageAt (eth : Web3Eth) (mgr : RequestManager) (address : String)
    (storagePosition : Jv) (blockIdentifier : Jv) (co : Option CallOptions) :
    Except String EthResponse × List RpcRequest :=
  wrapErrors ("Error getting storage value: ") <|
    match formatInput storagePosition none with
    | .error m => (.error m, [])
    | .ok pos =>
      match formatInput blockIdentifier none with
      | .error m => (.error m, [])
      | .ok blk =>
        dispatchCall mgr co ("eth_getStorageAt")
          [.val (.str address), .val (.str pos), .val (.str blk)]
          (some fun r => formatOutput r (effectiveReturnType eth co))

/-- getTransactionCount (index.ts lines 549-578): the block identifier is
formatted with formatInput unconditionally, with no block-tag bypass. -/
def getTransactionCount (eth : Web3Eth) (mgr : RequestManager) (address : String)
    (blockIdentifier : Jv) (co : Option CallOptions) :
    Except String EthResponse × List RpcRequest :=
  wrapErrors ("Error getting transaction count: ") <|
    match formatInput blockIdentifier none with
    | .error m => (.error m, [])
    | .ok blk =>
      dispatchCall mgr co ("eth_getTransactionCount")
        [.val (.str address), .val (.str blk)]
        (some fun r => formatOutput r (effectiveReturnType eth co))

/-- getBlockByHash (index.ts lines 1055-1090): result normalized with
formatRpcResultArray over the eight numeric block fields at the effective
return type. -/
def getBlockByHash (eth : Web3Eth) (mgr : RequestManager) (blockHash : String)
    (returnFullTxs : Bool) (co : Option CallOptions) :
    Except String EthResponse × List RpcRequest :=
  wrapErrors ("Error getting block by hash: ") <|
    dispatchCall mgr co ("eth_getBlockByHash")
      [.val (.str blockHash), .val (.bool returnFullTxs)]
      (some fun r =>
        formatRpcResultArray r
          ["number", "nonce", "difficulty", "totalDifficulty", "size", "gasLimit",
            "gasUsed", "timestamp"]
          (effectiveReturnType eth co))

/-- getBlockByNumber (index.ts lines 1101-1140): the block identifier is
formatted with formatInput; result normalized like getBlockByHash. -/
def getBlockByNumber (eth : Web3Eth) (mgr : RequestManager) (blockIdentifier : Jv)
    (returnFullTxs : Bool) (co : Option CallOptions) :
    Except String EthResponse × List RpcRequest :=
  wrapErrors ("Error getting block by number: ") <|
    match formatInput blockIdentifier none with
    | .error m => (.error m, [])
    | .ok blk =>
      dispatchCall mgr co ("eth_getBlockByNumber")
        [.val (.str blk), .val (.bool returnFullTxs)]
        (some fun r =>
          formatRpcResultArray r
            ["number", "nonce", "difficulty", "totalDifficulty", "size", "gasLimit",
              "gasUsed", "timestamp"]
            (effectiveReturnType eth co))

/-- getLogs (index.ts lines 1756-1795): the filter's block-range fields are
formatted when truthy; the result is normalized element-wise over the three
numeric log fields at the effective return type. -/
def getLogs (eth : Web3Eth) (mgr : RequestManager) (filter : EthFilterW)
    (co : Option CallOptions) : Except String EthResponse × List RpcRequest :=
  wrapErrors ("Error getting logs: ") <|
    match formatFilterW filter with
    | .error m => (.error m, [])
    | .ok f =>
      dispatchCall mgr co ("eth_getLogs") [.filter f]
        (some fun r =>
          formatRpcResultArray r ["logIndex", "transactionIndex", "blockNumber"]
            (effectiveReturnType eth co))

/-- sendTransaction (index.ts lines 867-903): the four numeric transaction
fields are formatted when truthy; no result normalization. -/
def sendTransaction (_eth : Web3Eth) (mgr : RequestManager) (transaction : EthTransactionW)
    (co : Option CallOptions) : Except String EthResponse × List RpcRequest :=
  wrapErrors ("Error sending transaction: ") <|
    match formatTransactionW transaction with
    | .error m => (.error m, [])
    | .ok t => dispatchCall mgr co ("eth_sendTransaction") [.tx t] none

/-- signTransaction (index.ts lines 814-850): same transaction treatment as
sendTransaction; no result normalization. -/
def signTransaction (_eth : Web3Eth) (mgr : RequestManager) (transaction : EthTransactionW)
    (co : Option CallOptions) : Except String EthResponse × List RpcRequest :=
  wrapErrors ("Error signing transaction: ") <|
    match formatTransactionW transaction with
    | .error m => (.error m, [])
    | .ok t => dispatchCall mgr co ("eth_signTransaction") [.tx t] none

/-- call (index.ts lines 947-983): same transaction treatment as
sendTransaction; no result normalization. -/
def call (_eth : Web3Eth) (mgr : RequestManager) (transaction : EthTransactionW)
    (co : Option CallOptions) : Except String EthResponse × List RpcRequest :=
  wrapErrors ("Error sending call transaction: ") <|
    match formatTransactionW transaction with
    | .error m => (.error m, [])
    | .ok t => dispatchCall mgr co ("eth_call") [.tx t] none

/-- estimateGas (index.ts lines 1000-1044): same transaction treatment as
sendTransaction; the result is normalized with formatOutput at the
effective return type. -/
def estimateGas (eth : Web3Eth) (mgr : RequestManager) (transaction : EthTransactionW)
    (co : Option CallOptions) : Except String EthResponse × List RpcRequest :=
  wrapErrors ("Error getting gas estimate: ") <|
    match formatTransactionW transaction with
    | .error m => (.error m, [])
    | .ok t =>
      dispatchCall mgr co ("eth_estimateGas") [.tx t]
        (some fun r => formatOutput r (effectiveReturnType eth co))

/-- submitHashRate (index.ts lines 1864-1885): the hash rate is formatted
with the 32-byte width overload, the client id with the plain overload; no
result normalization. -/
def submitHashRate (_eth : Web3Eth) (mgr : RequestManager) (hashRate : Jv)
    (clientId : Jv) (co : Option CallOptions) :
    Except String EthResponse × List RpcRequest :=
  wrapErrors ("Error submitting hash rate: ") <|
    match formatInput hashRate (some 32) with
    | .error m => (.error m, [])
    | .ok h =>
      match formatInput clientId none with
      | .error m => (.error m, [])
      | .ok c =>
        dispatchCall mgr co ("eth_submitHashRate") [.val (.str h), .val (.str c)] none

end Web3Eth

theorem digitsFuel_eq_digits (b : Nat) (hb : 2 ≤ b) :
    ∀ fuel n, n ≤ fuel → digitsFuel b fuel n = Nat.digits b n := by
  intro fuel
  induction fuel with
  | zero =>
    intro n hn
    have : n = 0 := Nat.le_zero.mp hn
    subst this
    simp [digitsFuel]
  | succ f ih =>
    intro n hn
    by_cases h0 : n = 0
    · subst h0; simp [digitsFuel]
    · have hpos : 0 < n := Nat.pos_of_ne_zero h0
      have hdiv : n / b < n := Nat.div_lt_self hpos (by omega)
      have hle : n / b ≤ f := by omega
      rw [digitsFuel, if_neg h0, ih _ hle, ← Nat.digits_def' (by omega : 1 < b) hpos]

theorem natDigits_eq_digits (b n : Nat) (hb : 2 ≤ b) :
    natDigits b n = Nat.digits b n :=
  digitsFuel_eq_digits b hb n n (Nat.le_refl n)

theorem ofDigitsN_eq_ofDigits (b : Nat) (l : List Nat) :
    ofDigitsN b l = Nat.ofDigits b l := by
  induction l with
  | nil => simp [ofDigitsN, Nat.ofDigits_nil]
  | cons d ds ih => simp [ofDigitsN, Nat.ofDigits_cons, ih]

theorem charVal_hexChar (d : Nat) (hd : d < 16) : charVal (hexChar d) = some d := by
  interval_cases d <;> decide

theorem charVal_lt (c : Char) (v : Nat) (h : charVal c = some v) : v < 16 := by
  unfold charVal at h
  split_ifs at h with h1 h2 h3 <;> (injection h with hv; omega)

theorem hexChar_ne_x (d : Nat) : hexChar d ≠ 'x' := by
  unfold hexChar
  split <;> decide

theorem parseDigits_map_hexChar (b : Nat) (hb : b ≤ 16) (ds : List Nat)
    (h : ∀ d ∈ ds, d < b) : parseDigits b (ds.map hexChar) = some ds := by
  induction ds with
  | nil => rfl
  | cons d ds ih =>
    have hd : d < b := h d (by simp)
    have hc : charVal (hexChar d) = some d := charVal_hexChar d (by omega)
    have hr := ih (fun x hx => h x (by simp [hx]))
    simp [parseDigits, hc, hr, hd]

theorem parseBase_natToBaseChars (b n : Nat) (hb2 : 2 ≤ b) (hb16 : b ≤ 16) :
    parseBase b (natToBaseChars b n) = some n := by
  by_cases h0 : n = 0
  · subst h0
    have hc : charVal '0' = some 0 := rfl
    simp [natToBaseChars, parseBase, parseDigits, hc, ofDigitsN,
      show 0 < b by omega]
  · have hdig := natDigits_eq_digits b n hb2
    have hmem : ∀ d ∈ (natDigits b n).reverse, d < b := by
      intro d hd
      exact Nat.digits_lt_base (by omega) (by rw [← hdig]; exact List.mem_reverse.mp hd)
    have hne : natDigits b n ≠ [] := by
      rw [hdig]
      exact Nat.digits_ne_nil_iff_ne_zero.mpr h0
    have hp := parseDigits_map_hexChar b hb16 ((natDigits b n).reverse) hmem
    unfold natToBaseChars parseBase
    rw [if_neg h0, hp]
    have hemp : ((natDigits b n).reverse.map hexChar).isEmpty = false := by
      simp [List.isEmpty_iff, hne]
    rw [hemp]
    simp only [Bool.false_eq_true, if_false, List.reverse_reverse]
    rw [ofDigitsN_eq_ofDigits, hdig, Nat.ofDigits_digits]

theorem mem_natToBaseChars_ne_x (b n : Nat) (c : Char)
    (hc : c ∈ natToBaseChars b n) : c ≠ 'x' := by
  unfold natToBaseChars at hc
  by_cases h0 : n = 0
  · rw [if_pos h0] at hc
    simp at hc
    subst hc
    decide
  · rw [if_neg h0] at hc
    rcases List.mem_map.mp hc with ⟨d, _, rfl⟩
    exact hexChar_ne_x d

theorem natToBaseChars_take_two_ne (b n : Nat) :
    (natToBaseChars b n).take 2 ≠ ['0', 'x'] := by
  intro h
  have hx : 'x' ∈ (natToBaseChars b n).take 2 := by rw [h]; simp
  exact mem_natToBaseChars_ne_x b n 'x' (List.take_subset _ _ hx) rfl

theorem parseNumeral_num (n : Nat) : parseNumeral (.num n) = .ok n := rfl

theorem parseNumeral_decStr (n : Nat) :
    parseNumeral (.str (natToBaseStr 10 n)) = .ok n := by
  unfold parseNumeral
  have ht : (natToBaseStr 10 n).toList = natToBaseChars 10 n := rfl
  simp only [ht]
  rw [if_neg (natToBaseChars_take_two_ne 10 n),
    parseBase_natToBaseChars 10 n (by omega) (by omega)]

theorem parseNumeral_hexStr (n : Nat) :
    parseNumeral (.str ("0x" ++ natToBaseStr 16 n)) = .ok n := by
  unfold parseNumeral
  have ht : ("0x" ++ natToBaseStr 16 n).toList = '0' :: 'x' :: natToBaseChars 16 n := by
    show ("0x" ++ String.mk (natToBaseChars 16 n)).data = _
    rw [String.data_append]
    rfl
  simp only [ht, List.take_cons, List.take_zero, List.drop_succ_cons, List.drop_zero]
  rw [if_pos (show List.take 2 ('0' :: 'x' :: natToBaseChars 16 n) = ['0', 'x'] from rfl),
    parseBase_natToBaseChars 16 n (by omega) (by omega)]

theorem parseDigits_replicate_zero (b : Nat) (hb : 0 < b) (k : Nat) :
    parseDigits b (List.replicate k '0') = some (List.replicate k 0) := by
  induction k with
  | zero => rfl
  | succ k ih =>
    have hc : charVal '0' = some 0 := rfl
    simp [List.replicate_succ, parseDigits, hc, ih, hb]

theorem parseDigits_append_of (b : Nat) (l1 l2 : List Char) (v1 v2 : List Nat)
    (h1 : parseDigits b l1 = some v1) (h2 : parseDigits b l2 = some v2) :
    parseDigits b (l1 ++ l2) = some (v1 ++ v2) := by
  induction l1 generalizing v1 with
  | nil =>
    simp [parseDigits] at h1
    subst h1
    simpa using h2
  | cons c cs ih =>
    rw [parseDigits] at h1
    rcases hc : charVal c with _ | v
    · rw [hc] at h1; exact absurd h1 (by simp)
    · rw [hc] at h1
      rcases hcs : parseDigits b cs with _ | vs
      · rw [hcs] at h1; exact absurd h1 (by simp)
      · rw [hcs] at h1
        dsimp only at h1
        by_cases hvb : v < b
        · rw [if_pos hvb] at h1
          injection h1 with h1
          subst h1
          rw [List.cons_append, parseDigits, hc, ih vs hcs]
          dsimp only
          rw [if_pos hvb, List.cons_append]
        · rw [if_neg hvb] at h1; exact absurd h1 (by simp)

theorem ofDigitsN_append (b : Nat) (l1 l2 : List Nat) :
    ofDigitsN b (l1 ++ l2) = ofDigitsN b l1 + b ^ l1.length * ofDigitsN b l2 := by
  induction l1 with
  | nil => simp [ofDigitsN]
  | cons d ds ih =>
    simp only [List.cons_append, ofDigitsN, List.length_cons]
    rw [show ds.append l2 = ds ++ l2 from rfl, ih]
    ring

theorem ofDigitsN_replicate_zero (b k : Nat) :
    ofDigitsN b (List.replicate k 0) = 0 := by
  induction k with
  | zero => rfl
  | succ k ih => simp [List.replicate_succ, ofDigitsN, ih]

theorem parseBase_pad (b n k : Nat) (hb : 0 < b) (cs : List Char)
    (h : parseBase b cs = some n) :
    parseBase b (List.replicate k '0' ++ cs) = some n := by
  unfold parseBase at h ⊢
  rcases hp : parseDigits b cs with _ | vs
  · rw [hp] at h; exact absurd h (by simp)
  · rw [hp] at h
    rcases hcs : cs.isEmpty with _ | _
    · rw [hcs] at h
      simp only [Bool.false_eq_true, if_false] at h
      injection h with h
      rw [parseDigits_append_of b _ _ _ _ (parseDigits_replicate_zero b hb k) hp]
      have hemp : (List.replicate k '0' ++ cs).isEmpty = false := by
        rcases cs with _ | ⟨c, cs⟩
        · exact absurd hcs (by simp)
        · simp
      rw [hemp]
      simp only [Bool.false_eq_true, if_false, List.reverse_append, List.reverse_replicate]
      rw [ofDigitsN_append, ofDigitsN_replicate_zero, ← h]
      simp
    · rw [hcs] at h
      exact absurd h (by simp)

theorem natToBaseChars_length_gt (w n : Nat) (h : 16 ^ (2 * w) ≤ n) :
    2 * w < (natToBaseChars 16 n).length := by
  have hn0 : n ≠ 0 := by
    have : 0 < 16 ^ (2 * w) := Nat.pos_pow_of_pos _ (by omega)
    omega
  unfold natToBaseChars
  rw [if_neg hn0, List.length_map, List.length_reverse,
    natDigits_eq_digits 16 n (by omega)]
  by_contra hle
  push_neg at hle
  have h1 : n < 16 ^ (Nat.digits 16 n).length :=
    Nat.lt_base_pow_length_digits (by omega)
  have h2 : (16 : Nat) ^ (Nat.digits 16 n).length ≤ 16 ^ (2 * w) :=
    Nat.pow_le_pow_right (by omega) hle
  omega

theorem wrapErrors_snd (ctx : String) (p : Except String EthResponse × List RpcRequest) :
    (wrapErrors ctx p).2 = p.2 := by
  rcases p with ⟨e, l⟩
  cases e <;> rfl

theorem wrapErrors_ok (ctx : String) (r : EthResponse) (l : List RpcRequest) :
    wrapErrors ctx (.ok r, l) = (.ok r, l) := rfl

theorem dispatchCall_subscribe (mgr : RequestManager) (co : Option CallOptions)
    (method : String) (params : List RpcParam) (norm : Option (Jv → Except String Jv))
    (h : subscribeRequested co = true) :
    dispatchCall mgr co method params norm =
      (.ok (.subscription (mgr.subscribeResponse (mkReq co method params))),
       [mkReq co method params]) := by
  unfold dispatchCall
  rw [h]
  rfl

theorem dispatchCall_send_norm (mgr : RequestManager) (co : Option CallOptions)
    (method : String) (params : List RpcParam) (f : Jv → Except String Jv)
    (hsub : subscribeRequested co = false) :
    dispatchCall mgr co method params (some f) =
      (match f (mgr.sendResponse (mkReq co method params)).result with
       | .error m => (.error m, [mkReq co method params])
       | .ok r =>
         (.ok (.response { mgr.sendResponse (mkReq co method params) with result := r }),
          [mkReq co method params])) := by
  unfold dispatchCall
  rw [hsub]
  simp only [Bool.false_eq_true, if_false]

theorem dispatchCall_log (mgr : RequestManager) (co : Option CallOptions)
    (method : String) (params : List RpcParam) (norm : Option (Jv → Except String Jv)) :
    (dispatchCall mgr co method params norm).2 = [mkReq co method params] := by
  unfold dispatchCall
  rcases h : subscribeRequested co with _ | _
  · cases norm with
    | none => rfl
    | some f =>
      simp only [Bool.false_eq_true, if_false]
      rcases hf : f (mgr.sendResponse (mkReq co method params)).result with m | r <;> rfl
  · rfl

/-- A sample request manager used to evaluate the operations at concrete
inputs: every send answers with a scalar hex result. -/
def sampleManager : RequestManager :=
  { sendResponse := fun _ => { id := 1, jsonrpc := "2.0", result := .str "0x64" },
    subscribeResponse := fun _ => { handle := 7 } }

/-- A sample request manager whose send answers with the structured syncing
record (three hex progress fields plus one field outside the normalized
set). -/
def syncingManager : RequestManager :=
  { sendResponse := fun _ =>
      { id := 1, jsonrpc := "2.0",
        result := .obj [("startingBlock", .str "0x64"), ("currentBlock", .str "0x65"),
          ("highestBlock", .str "0x66"), ("knownStates", .str "0x64")] },
    subscribeResponse := fun _ => { handle := 7 } }

/-- A sample client configured with the hex-string default return type. -/
def sampleEth : Web3Eth := { defaultReturnType := .HexString }

/-- A sample client configured with the numeric default return type. -/
def sampleEthNumber : Web3Eth := { defaultReturnType := .Number }

/-- The per-call options with the subscribe flag cleared and everything else
kept. -/
def unsubscribed (co : Option CallOptions) : Option CallOptions :=
  co.map fun c => { c with subscribe := false }

theorem rpcOptionsOf_unsubscribed (co : Option CallOptions) :
    rpcOptionsOf (unsubscribed co) = rpcOptionsOf co := by
  cases co <;> rfl

/-- A syntactically valid hex numeral: the 0x prefix followed by at least
one hex digit (either case). -/
def isValidHexStr (s : String) : Bool :=
  (s.toList.take 2 == ['0', 'x']) && !(s.toList.drop 2).isEmpty
    && (s.toList.drop 2).all fun c => (charVal c).isSome

/-- The canonical form of a hex numeral: 0x-prefixed, lowercase, leading
zeros trimmed — the canonical rendering of its numeric value. -/
def canonicalizeHex (s : String) : String :=
  match parseNumeral (.str s) with
  | .ok n => "0x" ++ natToBaseStr 16 n
  | .error _ => s

theorem parseDigits16_of_all_some (cs : List Char)
    (h : ∀ c ∈ cs, (charVal c).isSome = true) :
    ∃ vs, parseDigits 16 cs = some vs := by
  induction cs with
  | nil => exact ⟨[], rfl⟩
  | cons c cs ih =>
    obtain ⟨v, hv⟩ := Option.isSome_iff_exists.mp (h c (by simp))
    obtain ⟨vs, hvs⟩ := ih (fun x hx => h x (by simp [hx]))
    exact ⟨v :: vs, by simp [parseDigits, hv, hvs, charVal_lt c v hv]⟩

theorem parseBase16_of_all_some (cs : List Char) (hne : cs.isEmpty = false)
    (h : ∀ c ∈ cs, (charVal c).isSome = true) :
    ∃ n, parseBase 16 cs = some n := by
  obtain ⟨vs, hvs⟩ := parseDigits16_of_all_some cs h
  refine ⟨ofDigitsN 16 vs.reverse, ?_⟩
  rw [parseBase, hvs, hne]
  rfl

theorem parseNumeral_of_validHex (s : String) (h : isValidHexStr s = true) :
    ∃ n, parseNumeral (.str s) = .ok n := by
  unfold isValidHexStr at h
  rw [Bool.and_eq_true, Bool.and_eq_true] at h
  obtain ⟨⟨h1, h2⟩, h3⟩ := h
  have htake : s.toList.take 2 = ['0', 'x'] := by
    exact beq_iff_eq.mp h1
  have hne : (s.toList.drop 2).isEmpty = false := by
    rcases hb : (s.toList.drop 2).isEmpty with _ | _
    · rfl
    · rw [hb] at h2; exact absurd h2 (by decide)
  have hall : ∀ c ∈ s.toList.drop 2, (charVal c).isSome = true :=
    List.all_eq_true.mp h3
  obtain ⟨n, hn⟩ := parseBase16_of_all_some (s.toList.drop 2) hne hall
  refine ⟨n, ?_⟩
  unfold parseNumeral
  dsimp only
  rw [if_pos htake, hn]

/-- C1: the claim says every operation dispatches its catalogue method name,
in particular that getBalance dispatches eth_getBalance and getSha3 the
Keccak-256 hashing method (web3_sha3).  Evaluating the embedded source at
concrete inputs shows getBalance transmits the network-version method name
net_version and getSha3 transmits the client-version method name
web3_clientVersion, contradicting the catalogue contract the claim states. -/
theorem getBalance_getSha3_dispatch_wrong_methods :
    ((Web3Eth.getBalance sampleEth sampleManager "0xabc" (.str "latest") none).2.map
        (fun r => r.method) = ["net_version"]
      ∧ "net_version" ≠ "eth_getBalance")
    ∧ ((Web3Eth.getSha3 sampleEth sampleManager "0xdead" none).2.map
        (fun r => r.method) = ["web3_clientVersion"]
      ∧ "web3_clientVersion" ≠ "web3_sha3") :=
  ⟨⟨rfl, by decide⟩, ⟨rfl, by decide⟩⟩

/-- C2: the claim says every operation with a block identifier passes the
reserved keywords through verbatim.  getBalance does (first two conjuncts:
"latest" verbatim, 100 dispatched as 0x64), but getTransactionCount feeds
the keyword into the numeric converter, which rejects it: the call errors
and transmits nothing, contradicting the claim. -/
theorem blockTag_bypass_missing_in_getTransactionCount :
    (Web3Eth.getBalance sampleEth sampleManager "0xabc" (.str "latest") none).2 =
      [{ rpcOptions := [], method := "net_version",
         params := [.val (.str "0xabc"), .val (.str "latest")] }]
    ∧ (Web3Eth.getBalance sampleEth sampleManager "0xabc" (.num 100) none).2 =
      [{ rpcOptions := [], method := "net_version",
         params := [.val (.str "0xabc"), .val (.str "0x64")] }]
    ∧ Web3Eth.getTransactionCount sampleEth sampleManager "0xabc" (.str "latest") none =
      (.error ("Error getting transaction count: ConversionError: cannot convert latest"),
       []) :=
  ⟨rfl, rfl, rfl⟩

/-- C3 counterexample: the claim says the wrapped conversion error
identifies the failing field.  Two getStorageAt calls that fail at
different fields (the storage position in the first, the block identifier
in the second) surface exactly the same error, so the surfaced error cannot
identify which field failed. -/
theorem getStorageAt_error_does_not_identify_field :
    Web3Eth.getStorageAt sampleEth sampleManager "0xabc" (.str "zzz") (.str "0x1") none =
      Web3Eth.getStorageAt sampleEth sampleManager "0xabc" (.str "0x1") (.str "zzz") none
    ∧ Web3Eth.getStorageAt sampleEth sampleManager "0xabc" (.str "zzz") (.str "0x1") none =
      (.error ("Error getting storage value: ConversionError: cannot convert zzz"), []) :=
  ⟨rfl, rfl⟩

/-- C3 (amended): if conversion of any getStorageAt parameter fails, the
operation surfaces a single wrapped error carrying the method-specific
context message and the original cause, and no request is transmitted; the
error does not name the failing field. -/
theorem getStorageAt_conversion_failure_aborts (eth : Web3Eth) (mgr : RequestManager)
    (address : String) (storagePosition blockIdentifier : Jv) (co : Option CallOptions) :
    (∀ m, formatInput storagePosition none = .error m →
      Web3Eth.getStorageAt eth mgr address storagePosition blockIdentifier co =
        (.error ("Error getting storage value: " ++ m), []))
    ∧ (∀ p m, formatInput storagePosition none = .ok p →
        formatInput blockIdentifier none = .error m →
        Web3Eth.getStorageAt eth mgr address storagePosition blockIdentifier co =
          (.error ("Error getting storage value: " ++ m), [])) := by
  constructor
  · intro m hm
    unfold Web3Eth.getStorageAt
    rw [hm]
    rfl
  · intro p m hp hm
    unfold Web3Eth.getStorageAt
    rw [hp, hm]
    rfl

/-- C3 witness: the amended theorem applied at a concrete failing storage
position. -/
theorem getStorageAt_conversion_failure_aborts_witness :
    Web3Eth.getStorageAt sampleEth sampleManager "0xabc" (.str "zzz") (.str "0x1") none =
      (.error ("Error getting storage value: " ++ "ConversionError: cannot convert zzz"),
       []) :=
  (getStorageAt_conversion_failure_aborts sampleEth sampleManager "0xabc"
    (.str "zzz") (.str "0x1") none).1 ("ConversionError: cannot convert zzz") rfl

/-- C4: the claim says the per-call returnType override takes precedence
for getSyncing.  Evaluating the embedded source with a client default of
hex strings and a per-call override requesting numbers: the normalized
record keeps the hex default rendering (first conjunct), while the override
representation would have produced the numeric record the second conjunct
computes — the override is ignored by getSyncing. -/
theorem getSyncing_ignores_returnType_override :
    Web3Eth.getSyncing sampleEth syncingManager
        (some { subscribe := false, returnType := some ValidTypesEnum.Number, rpcOptions := [] }) =
      (.ok (.response { id := 1, jsonrpc := "2.0",
                        result := .obj [("startingBlock", .str "0x64"),
                          ("currentBlock", .str "0x65"), ("highestBlock", .str "0x66"),
                          ("knownStates", .str "0x64")] }),
       [{ rpcOptions := [], method := "eth_syncing", params := [] }])
    ∧ formatRpcResultArray
        (.obj [("startingBlock", .str "0x64"), ("currentBlock", .str "0x65"),
          ("highestBlock", .str "0x66"), ("knownStates", .str "0x64")])
        ["startingBlock", "currentBlock", "highestBlock"] .Number =
      .ok (.obj [("startingBlock", .num 100), ("currentBlock", .num 101),
        ("highestBlock", .num 102), ("knownStates", .str "0x64")]) :=
  ⟨rfl, rfl⟩

/-- A sample request manager whose send answers with a null result. -/
def nullManager : RequestManager :=
  { sendResponse := fun _ => { id := 1, jsonrpc := "2.0", result := .null },
    subscribeResponse := fun _ => { handle := 7 } }

/-- A sample request manager whose send answers with an empty log array. -/
def emptyLogsManager : RequestManager :=
  { sendResponse := fun _ => { id := 1, jsonrpc := "2.0", result := .arr [] },
    subscribeResponse := fun _ => { handle := 7 } }

/-- A sample request manager whose send answers with the boolean
not-syncing result. -/
def notSyncingManager : RequestManager :=
  { sendResponse := fun _ => { id := 1, jsonrpc := "2.0", result := .bool false },
    subscribeResponse := fun _ => { handle := 7 } }

/-- C5: a null RPC result is not an error: getBlockByHash and getLogs
return the response unchanged, with no field normalization; a sequence
result is normalized independently element by element (so an empty array
normalizes to an empty array). -/
theorem null_lookup_results_pass_through :
    (∀ (eth : Web3Eth) (mgr : RequestManager) (blockHash : String) (full : Bool)
        (co : Option CallOptions),
      subscribeRequested co = false →
      (mgr.sendResponse (mkReq co ("eth_getBlockByHash")
          [.val (.str blockHash), .val (.bool full)])).result = .null →
      Web3Eth.getBlockByHash eth mgr blockHash full co =
        (.ok (.response (mgr.sendResponse (mkReq co ("eth_getBlockByHash")
            [.val (.str blockHash), .val (.bool full)]))),
         [mkReq co ("eth_getBlockByHash") [.val (.str blockHash), .val (.bool full)]]))
    ∧ (∀ (eth : Web3Eth) (mgr : RequestManager) (filter f2 : EthFilterW)
        (co : Option CallOptions),
      subscribeRequested co = false →
      formatFilterW filter = .ok f2 →
      (mgr.sendResponse (mkReq co ("eth_getLogs") [.filter f2])).result = .null →
      Web3Eth.getLogs eth mgr filter co =
        (.ok (.response (mgr.sendResponse (mkReq co ("eth_getLogs") [.filter f2]))),
         [mkReq co ("eth_getLogs") [.filter f2]]))
    ∧ (∀ (eth : Web3Eth) (mgr : RequestManager) (filter f2 : EthFilterW)
        (co : Option CallOptions) (xs ys : List Jv),
      subscribeRequested co = false →
      formatFilterW filter = .ok f2 →
      (mgr.sendResponse (mkReq co ("eth_getLogs") [.filter f2])).result = .arr xs →
      xs.mapM (formatRpcRecord ["logIndex", "transactionIndex", "blockNumber"]
        (effectiveReturnType eth co)) = .ok ys →
      Web3Eth.getLogs eth mgr filter co =
        (.ok (.response { mgr.sendResponse (mkReq co ("eth_getLogs") [.filter f2]) with
                          result := .arr ys }),
         [mkReq co ("eth_getLogs") [.filter f2]])) := by
  refine ⟨?_, ?_, ?_⟩
  · intro eth mgr blockHash full co hsub hres
    unfold Web3Eth.getBlockByHash
    rw [dispatchCall_send_norm _ _ _ _ _ hsub]
    have h2 : formatRpcResultArray
        (mgr.sendResponse (mkReq co ("eth_getBlockByHash")
          [.val (.str blockHash), .val (.bool full)])).result
        ["number", "nonce", "difficulty", "totalDifficulty", "size", "gasLimit",
          "gasUsed", "timestamp"] (effectiveReturnType eth co) =
        .ok (mgr.sendResponse (mkReq co ("eth_getBlockByHash")
          [.val (.str blockHash), .val (.bool full)])).result := by
      rw [hres]
      rfl
    rw [h2]
    rfl
  · intro eth mgr filter f2 co hsub hf hres
    unfold Web3Eth.getLogs
    rw [hf]
    dsimp only
    rw [dispatchCall_send_norm _ _ _ _ _ hsub]
    have h2 : formatRpcResultArray
        (mgr.sendResponse (mkReq co ("eth_getLogs") [.filter f2])).result
        ["logIndex", "transactionIndex", "blockNumber"] (effectiveReturnType eth co) =
        .ok (mgr.sendResponse (mkReq co ("eth_getLogs") [.filter f2])).result := by
      rw [hres]
      rfl
    rw [h2]
    rfl
  · intro eth mgr filter f2 co xs ys hsub hf hres hmap
    unfold Web3Eth.getLogs
    rw [hf]
    dsimp only
    rw [dispatchCall_send_norm _ _ _ _ _ hsub]
    have h2 : formatRpcResultArray
        (mgr.sendResponse (mkReq co ("eth_getLogs") [.filter f2])).result
        ["logIndex", "transactionIndex", "blockNumber"] (effectiveReturnType eth co) =
        .ok (.arr ys) := by
      rw [hres]
      unfold formatRpcResultArray
      dsimp only
      rw [hmap]
    rw [h2]
    rfl

/-- C5 witness: the theorem applied at concrete inputs — a null block
lookup, a null log query, and an empty log array. -/
theorem null_lookup_results_pass_through_witness :
    Web3Eth.getBlockByHash sampleEth nullManager "0xh" true none =
      (.ok (.response { id := 1, jsonrpc := "2.0", result := .null }),
       [mkReq none ("eth_getBlockByHash") [.val (.str "0xh"), .val (.bool true)]])
    ∧ Web3Eth.getLogs sampleEth nullManager
        { fromBlock := none, toBlock := none, rest := [] } none =
      (.ok (.response { id := 1, jsonrpc := "2.0", result := .null }),
       [mkReq none ("eth_getLogs")
          [.filter { fromBlock := none, toBlock := none, rest := [] }]])
    ∧ Web3Eth.getLogs sampleEth emptyLogsManager
        { fromBlock := none, toBlock := none, rest := [] } none =
      (.ok (.response { id := 1, jsonrpc := "2.0", result := .arr [] }),
       [mkReq none ("eth_getLogs")
          [.filter { fromBlock := none, toBlock := none, rest := [] }]]) :=
  ⟨null_lookup_results_pass_through.1 sampleEth nullManager "0xh" true none rfl rfl,
   null_lookup_results_pass_through.2.1 sampleEth nullManager
     { fromBlock := none, toBlock := none, rest := [] }
     { fromBlock := none, toBlock := none, rest := [] } none rfl rfl rfl,
   null_lookup_results_pass_through.2.2 sampleEth emptyLogsManager
     { fromBlock := none, toBlock := none, rest := [] }
     { fromBlock := none, toBlock := none, rest := [] } none [] [] rfl rfl rfl rfl⟩

/-- C6: the syncing result is a boolean-or-record union: when the node
answers with the boolean false the response is returned unchanged with no
normalization; when it answers with the structured record the three
progress fields are normalized (and fields outside the set are left as
received). -/
theorem getSyncing_union_normalization :
    (∀ (eth : Web3Eth) (mgr : RequestManager) (co : Option CallOptions),
      subscribeRequested co = false →
      (mgr.sendResponse (mkReq co ("eth_syncing") [])).result = .bool false →
      Web3Eth.getSyncing eth mgr co =
        (.ok (.response (mgr.sendResponse (mkReq co ("eth_syncing") []))),
         [mkReq co ("eth_syncing") []]))
    ∧ Web3Eth.getSyncing sampleEthNumber syncingManager none =
      (.ok (.response { id := 1, jsonrpc := "2.0",
                        result := .obj [("startingBlock", .num 100),
                          ("currentBlock", .num 101), ("highestBlock", .num 102),
                          ("knownStates", .str "0x64")] }),
       [mkReq none ("eth_syncing") []]) := by
  constructor
  · intro eth mgr co hsub hres
    unfold Web3Eth.getSyncing
    rw [dispatchCall_send_norm _ _ _ _ _ hsub]
    have h2 : formatRpcResultArray
        (mgr.sendResponse (mkReq co ("eth_syncing") [])).result
        ["startingBlock", "currentBlock", "highestBlock"] eth.defaultReturnType =
        .ok (mgr.sendResponse (mkReq co ("eth_syncing") [])).result := by
      rw [hres]
      rfl
    rw [h2]
    rfl
  · rfl

/-- C6 witness: the boolean branch of the theorem applied at a concrete
not-syncing manager. -/
theorem getSyncing_union_normalization_witness :
    Web3Eth.getSyncing sampleEth notSyncingManager none =
      (.ok (.response { id := 1, jsonrpc := "2.0", result := .bool false }),
       [mkReq none ("eth_syncing") []]) :=
  getSyncing_union_normalization.1 sampleEth notSyncingManager none rfl rfl

theorem formatTxField_falsy (v : Option Jv) (h : truthy v = false) :
    formatTxField v = .ok none := by
  unfold formatTxField
  rw [h]
  rfl

theorem formatTxField_truthy (v : Jv) (hs : String) (h : truthy (some v) = true)
    (hf : formatInput v none = .ok hs) :
    formatTxField (some v) = .ok (some (.str hs)) := by
  unfold formatTxField
  rw [h]
  dsimp only
  rw [hf]
  rfl

/-- C7: in sendTransaction, signTransaction, call and estimateGas, each of
the gas, gasPrice, value and nonce fields is replaced by its formatInput
conversion only when truthy; a falsy field — including the numeric value
0 — becomes undefined rather than a converted hex string, all other
transaction fields pass through unchanged, and all four operations transmit
exactly the formatted transaction as their single parameter. -/
theorem transaction_falsy_fields_undefined :
    (∀ (t ft : EthTransactionW), formatTransactionW t = .ok ft →
      (truthy t.gas = false → ft.gas = none)
      ∧ (truthy t.gasPrice = false → ft.gasPrice = none)
      ∧ (truthy t.value = false → ft.value = none)
      ∧ (truthy t.nonce = false → ft.nonce = none)
      ∧ (∀ v hs, t.gas = some v → truthy (some v) = true →
          formatInput v none = .ok hs → ft.gas = some (.str hs))
      ∧ (∀ v hs, t.gasPrice = some v → truthy (some v) = true →
          formatInput v none = .ok hs → ft.gasPrice = some (.str hs))
      ∧ (∀ v hs, t.value = some v → truthy (some v) = true →
          formatInput v none = .ok hs → ft.value = some (.str hs))
      ∧ (∀ v hs, t.nonce = some v → truthy (some v) = true →
          formatInput v none = .ok hs → ft.nonce = some (.str hs))
      ∧ ft.rest = t.rest)
    ∧ (∀ (eth : Web3Eth) (mgr : RequestManager) (t ft : EthTransactionW)
        (co : Option CallOptions), formatTransactionW t = .ok ft →
      (Web3Eth.sendTransaction eth mgr t co).2 =
        [mkReq co ("eth_sendTransaction") [.tx ft]]
      ∧ (Web3Eth.signTransaction eth mgr t co).2 =
        [mkReq co ("eth_signTransaction") [.tx ft]]
      ∧ (Web3Eth.call eth mgr t co).2 = [mkReq co ("eth_call") [.tx ft]]
      ∧ (Web3Eth.estimateGas eth mgr t co).2 =
        [mkReq co ("eth_estimateGas") [.tx ft]]) := by
  constructor
  · intro t ft h
    unfold formatTransactionW at h
    rcases hg : formatTxField t.gas with m | g <;> rw [hg] at h
    · simp at h
    rcases hgp : formatTxField t.gasPrice with m | gp <;> rw [hgp] at h
    · simp at h
    rcases hvl : formatTxField t.value with m | vl <;> rw [hvl] at h
    · simp at h
    rcases hnc : formatTxField t.nonce with m | nc <;> rw [hnc] at h
    · simp at h
    dsimp only at h
    injection h with h
    subst h
    refine ⟨?_, ?_, ?_, ?_, ?_, ?_, ?_, ?_, rfl⟩
    · intro hfalsy
      have h2 := formatTxField_falsy t.gas hfalsy
      rw [hg] at h2
      injection h2 with h2
    · intro hfalsy
      have h2 := formatTxField_falsy t.gasPrice hfalsy
      rw [hgp] at h2
      injection h2 with h2
    · intro hfalsy
      have h2 := formatTxField_falsy t.value hfalsy
      rw [hvl] at h2
      injection h2 with h2
    · intro hfalsy
      have h2 := formatTxField_falsy t.nonce hfalsy
      rw [hnc] at h2
      injection h2 with h2
    · intro v hs hv htr hfi
      have h2 := formatTxField_truthy v hs htr hfi
      rw [hv] at hg
      rw [hg] at h2
      injection h2 with h2
    · intro v hs hv htr hfi
      have h2 := formatTxField_truthy v hs htr hfi
      rw [hv] at hgp
      rw [hgp] at h2
      injection h2 with h2
    · intro v hs hv htr hfi
      have h2 := formatTxField_truthy v hs htr hfi
      rw [hv] at hvl
      rw [hvl] at h2
      injection h2 with h2
    · intro v hs hv htr hfi
      have h2 := formatTxField_truthy v hs htr hfi
      rw [hv] at hnc
      rw [hnc] at h2
      injection h2 with h2
  · intro eth mgr t ft co h
    refine ⟨?_, ?_, ?_, ?_⟩
    · unfold Web3Eth.sendTransaction
      rw [wrapErrors_snd, h]
      dsimp only
      rw [dispatchCall_log]
    · unfold Web3Eth.signTransaction
      rw [wrapErrors_snd, h]
      dsimp only
      rw [dispatchCall_log]
    · unfold Web3Eth.call
      rw [wrapErrors_snd, h]
      dsimp only
      rw [dispatchCall_log]
    · unfold Web3Eth.estimateGas
      rw [wrapErrors_snd, h]
      dsimp only
      rw [dispatchCall_log]

/-- A sample transaction: truthy gas, absent gasPrice, falsy empty-string
value, and the legitimate numeric nonce 0, plus a pass-through field. -/
def sampleTransaction : EthTransactionW :=
  { gas := some (.num 1), gasPrice := none, value := some (.str ""),
    nonce := some (.num 0), rest := [("from", .str "0xa")] }

/-- The formatted form of the sample transaction. -/
def sampleFormattedTransaction : EthTransactionW :=
  { gas := some (.str "0x1"), gasPrice := none, value := none,
    nonce := none, rest := [("from", .str "0xa")] }

/-- C7 witness: the theorem applied to the sample transaction — nonce 0 is
falsy so it becomes undefined, the truthy gas is hex-converted, the rest
passes through, and sendTransaction transmits the formatted transaction. -/
theorem transaction_falsy_fields_undefined_witness :
    sampleFormattedTransaction.nonce = none
    ∧ sampleFormattedTransaction.gas = some (.str "0x1")
    ∧ sampleFormattedTransaction.rest = sampleTransaction.rest
    ∧ (Web3Eth.sendTransaction sampleEth sampleManager sampleTransaction none).2 =
      [mkReq none ("eth_sendTransaction") [.tx sampleFormattedTransaction]] :=
  ⟨(transaction_falsy_fields_undefined.1 sampleTransaction sampleFormattedTransaction
      rfl).2.2.2.1 rfl,
   (transaction_falsy_fields_undefined.1 sampleTransaction sampleFormattedTransaction
      rfl).2.2.2.2.1 (.num 1) "0x1" rfl rfl rfl,
   (transaction_falsy_fields_undefined.1 sampleTransaction sampleFormattedTransaction
      rfl).2.2.2.2.2.2.2.2,
   (transaction_falsy_fields_undefined.2 sampleEth sampleManager sampleTransaction
      sampleFormattedTransaction none rfl).1⟩

/-- C8: the byte-width overload of formatInput left-pads the hex output to
exactly the requested width without changing the encoded value, fails when
the value already needs more than the requested width, and pads the example
input 0x1 at width 32 to the 32-byte zero-padded hex string. -/
theorem formatInput_width_pads :
    (∀ (v : Jv) (w n : Nat), parseNumeral v = .ok n →
      (∀ s, formatInput v (some w) = .ok s →
        s.length = 2 * w + 2 ∧ parseNumeral (.str s) = .ok n)
      ∧ (16 ^ (2 * w) ≤ n → ∃ m, formatInput v (some w) = .error m))
    ∧ formatInput (.str "0x1") (some 32) =
      .ok "0x0000000000000000000000000000000000000000000000000000000000000001" := by
  constructor
  · intro v w n hp
    constructor
    · intro s hok
      unfold formatInput at hok
      rw [hp] at hok
      dsimp only at hok
      by_cases hlen : 2 * w < (natToBaseStr 16 n).length
      · rw [if_pos hlen] at hok
        exact absurd hok (by simp)
      · rw [if_neg hlen] at hok
        injection hok with hok
        subst hok
        have hlen2 : (natToBaseChars 16 n).length ≤ 2 * w := by
          have : (natToBaseStr 16 n).length = (natToBaseChars 16 n).length := rfl
          omega
        constructor
        · rw [String.length_append, String.length_append]
          have h1 : ("0x" : String).length = 2 := rfl
          have h2 : (String.mk (List.replicate (2 * w - (natToBaseStr 16 n).length)
              '0')).length = 2 * w - (natToBaseStr 16 n).length := by
            show (List.replicate (2 * w - (natToBaseStr 16 n).length) '0').length = _
            exact List.length_replicate _ _
          have h3 : (natToBaseStr 16 n).length = (natToBaseChars 16 n).length := rfl
          omega
        · have hlist : ("0x" ++ String.mk (List.replicate
                (2 * w - (natToBaseStr 16 n).length) '0') ++ natToBaseStr 16 n).toList =
              '0' :: 'x' :: (List.replicate (2 * w - (natToBaseStr 16 n).length) '0'
                ++ natToBaseChars 16 n) := by
            show (("0x" ++ String.mk _) ++ String.mk _).data = _
            rw [String.data_append, String.data_append]
            rfl
          unfold parseNumeral
          dsimp only
          rw [hlist]
          rw [if_pos (show List.take 2 ('0' :: 'x' :: (List.replicate
              (2 * w - (natToBaseStr 16 n).length) '0' ++ natToBaseChars 16 n)) =
              ['0', 'x'] from rfl)]
          have hpad := parseBase_pad 16 n (2 * w - (natToBaseStr 16 n).length)
            (by omega) (natToBaseChars 16 n)
            (parseBase_natToBaseChars 16 n (by omega) (by omega))
          dsimp only [List.drop_succ_cons, List.drop_zero]
          rw [hpad]
    · intro hge
      refine ⟨"ConversionError: value exceeds requested byte width", ?_⟩
      unfold formatInput
      rw [hp]
      dsimp only
      rw [if_pos ?_]
      have hgt := natToBaseChars_length_gt w n hge
      have : (natToBaseStr 16 n).length = (natToBaseChars 16 n).length := rfl
      omega
  · rfl

/-- C8 witness: the theorem applied at the example input 0x1 with width 32:
the padded output has exactly 32 bytes of hex digits and still parses to
the value 1. -/
theorem formatInput_width_pads_witness :
    ("0x0000000000000000000000000000000000000000000000000000000000000001" : String).length
        = 2 * 32 + 2
    ∧ parseNumeral
        (.str "0x0000000000000000000000000000000000000000000000000000000000000001") =
      .ok 1 :=
  (formatInput_width_pads.1 (.str "0x1") 32 1 rfl).1
    "0x0000000000000000000000000000000000000000000000000000000000000001"
    formatInput_width_pads.2

/-- C9: for every syntactically valid hex string, converting to
DecimalString and back to HexString yields the canonical form of the input
(equal up to leading-zero trimming and case); for every value within the
safe numeric range, converting to HexString and then to Number round-trips
to the same value. -/
theorem convert_roundtrips :
    (∀ s, isValidHexStr s = true →
      ∃ d, convert (.str s) .DecimalString = .ok (.str d)
        ∧ convert (.str d) .HexString = .ok (.str (canonicalizeHex s)))
    ∧ (∀ n, n ≤ maxSafeInteger →
      ∃ hs, convert (.num n) .HexString = .ok (.str hs)
        ∧ convert (.str hs) .Number = .ok (.num n)) := by
  constructor
  · intro s hv
    obtain ⟨n, hn⟩ := parseNumeral_of_validHex s hv
    refine ⟨natToBaseStr 10 n, ?_, ?_⟩
    · unfold convert
      rw [hn]
    · unfold convert
      rw [parseNumeral_decStr n]
      unfold canonicalizeHex
      rw [hn]
  · intro n hle
    refine ⟨"0x" ++ natToBaseStr 16 n, ?_, ?_⟩
    · unfold convert
      rw [parseNumeral_num]
    · unfold convert
      rw [parseNumeral_hexStr n]
      dsimp only
      rw [if_pos hle]

/-- C9 witness: the theorem applied at the valid hex string 0x0A (whose
canonical form is 0xa) and at the safe integer 3. -/
theorem convert_roundtrips_witness :
    isValidHexStr "0x0A" = true
    ∧ (∃ d, convert (.str "0x0A") .DecimalString = .ok (.str d)
        ∧ convert (.str d) .HexString = .ok (.str (canonicalizeHex "0x0A")))
    ∧ 3 ≤ maxSafeInteger
    ∧ (∃ hs, convert (.num 3) .HexString = .ok (.str hs)
        ∧ convert (.str hs) .Number = .ok (.num 3)) :=
  ⟨rfl, convert_roundtrips.1 "0x0A" rfl, by decide,
   convert_roundtrips.2 3 (by decide)⟩

/-- The mkReq built for a call is unchanged by clearing the subscribe
flag. -/
theorem mkReq_unsubscribed (co : Option CallOptions) (method : String)
    (params : List RpcParam) :
    mkReq (unsubscribed co) method params = mkReq co method params := by
  unfold mkReq
  rw [rpcOptionsOf_unsubscribed]

/-- C10: in subscribe mode an operation returns the Request Manager's
subscription response as-is — no output normalization is applied even by
operations that normalize in request/response mode — and transmits exactly
the same method name and parameter list as request/response mode would. -/
theorem subscribe_mode_bypasses_normalization :
    (∀ (eth : Web3Eth) (mgr : RequestManager) (co : Option CallOptions),
      subscribeRequested co = true →
      Web3Eth.getGasPrice eth mgr co =
        (.ok (.subscription (mgr.subscribeResponse (mkReq co ("eth_gasPrice") []))),
         [mkReq co ("eth_gasPrice") []])
      ∧ (Web3Eth.getGasPrice eth mgr co).2 =
        (Web3Eth.getGasPrice eth mgr (unsubscribed co)).2)
    ∧ (∀ (eth : Web3Eth) (mgr : RequestManager) (blockId : Jv) (full : Bool)
        (co : Option CallOptions) (blk : String),
      subscribeRequested co = true →
      formatInput blockId none = .ok blk →
      Web3Eth.getBlockByNumber eth mgr blockId full co =
        (.ok (.subscription (mgr.subscribeResponse
            (mkReq co ("eth_getBlockByNumber") [.val (.str blk), .val (.bool full)]))),
         [mkReq co ("eth_getBlockByNumber") [.val (.str blk), .val (.bool full)]])
      ∧ (Web3Eth.getBlockByNumber eth mgr blockId full co).2 =
        (Web3Eth.getBlockByNumber eth mgr blockId full (unsubscribed co)).2) := by
  constructor
  · intro eth mgr co hsub
    constructor
    · unfold Web3Eth.getGasPrice
      rw [dispatchCall_subscribe _ _ _ _ _ hsub]
      rfl
    · unfold Web3Eth.getGasPrice
      rw [wrapErrors_snd, wrapErrors_snd, dispatchCall_log, dispatchCall_log,
        mkReq_unsubscribed]
  · intro eth mgr blockId full co blk hsub hfmt
    constructor
    · unfold Web3Eth.getBlockByNumber
      rw [hfmt]
      dsimp only
      rw [dispatchCall_subscribe _ _ _ _ _ hsub]
      rfl
    · unfold Web3Eth.getBlockByNumber
      rw [hfmt]
      dsimp only
      rw [wrapErrors_snd, wrapErrors_snd, dispatchCall_log, dispatchCall_log,
        mkReq_unsubscribed]

/-- The sample per-call options requesting subscribe mode. -/
def subscribeOptions : Option CallOptions :=
  some { subscribe := true, returnType := none, rpcOptions := [] }

/-- C10 witness: the theorem applied to getGasPrice and getBlockByNumber at
concrete subscribe-mode inputs. -/
theorem subscribe_mode_bypasses_normalization_witness :
    (Web3Eth.getGasPrice sampleEth sampleManager subscribeOptions =
      (.ok (.subscription { handle := 7 }),
       [mkReq subscribeOptions ("eth_gasPrice") []])
      ∧ (Web3Eth.getGasPrice sampleEth sampleManager subscribeOptions).2 =
        (Web3Eth.getGasPrice sampleEth sampleManager (unsubscribed subscribeOptions)).2)
    ∧ (Web3Eth.getBlockByNumber sampleEth sampleManager (.num 100) true subscribeOptions =
      (.ok (.subscription { handle := 7 }),
       [mkReq subscribeOptions ("eth_getBlockByNumber")
          [.val (.str "0x64"), .val (.bool true)]])
      ∧ (Web3Eth.getBlockByNumber sampleEth sampleManager (.num 100) true
          subscribeOptions).2 =
        (Web3Eth.getBlockByNumber sampleEth sampleManager (.num 100) true
          (unsubscribed subscribeOptions)).2) :=
  ⟨subscribe_mode_bypasses_normalization.1 sampleEth sampleManager subscribeOptions rfl,
   subscribe_mode_bypasses_normalization.2 sampleEth sampleManager (.num 100) true
     subscribeOptions "0x64" rfl rfl⟩
